import Mathlib

/-!
Verification development for the SmartSoil live-telemetry dashboard.

The definitions below are a shallow embedding of the TypeScript source:
  * the `Live` page (crop selection, realtime telemetry feed, threshold
    catalog, advisory builders `buildCropReco` / `buildAltReco`, chart load),
  * the `Analytics` page (historical window load and the `stats` summary).
Numeric sensor values are modelled as rationals (`ℚ`); a nullable column is
an `Option ℚ`.  The `Number.isNaN` guards of the source are vacuous in this
model, since `ℚ` has no NaN.
-/

/-- The crop union type from `type.ts`. -/
inductive Crop where
  | pechay
  | tanglad
  | okra
deriving DecidableEq, Repr

/-- The seven tracked soil parameters (the keys used by `PARAMS` and
`SUM_PARAMS` in the source). -/
inductive Param where
  | moist_pct
  | temp_c
  | ec_ms
  | ph
  | n_mgkg
  | p_mgkg
  | k_mgkg
deriving DecidableEq, Repr

/-- Row from the `device` table (`Dev` in `type.ts`). -/
structure Dev where
  id : String
  name : String
  ing_tok : String
  cur_crop : Option Crop
deriving DecidableEq, Repr

/-- One telemetry sample (`TelemRow` in `type.ts`); every numeric channel is
independently nullable. -/
structure TelemRow where
  dev_id : String
  upd_at : ℚ
  crop : Crop
  ph : Option ℚ
  moist_pct : Option ℚ
  temp_c : Option ℚ
  ec_ms : Option ℚ
  n_mgkg : Option ℚ
  p_mgkg : Option ℚ
  k_mgkg : Option ℚ
deriving DecidableEq, Repr

/-- Dynamic field access `telem[p.key]` of the source. -/
def TelemRow.get (t : TelemRow) : Param → Option ℚ
  | .moist_pct => t.moist_pct
  | .temp_c => t.temp_c
  | .ec_ms => t.ec_ms
  | .ph => t.ph
  | .n_mgkg => t.n_mgkg
  | .p_mgkg => t.p_mgkg
  | .k_mgkg => t.k_mgkg

/-- A `crop_thr` row (`ThrRow` in the `Live` page). -/
structure ThrRow where
  crop : Crop
  param : Param
  val_min : ℚ
  val_max : ℚ
  unit : String
  descr : Option String
deriving DecidableEq, Repr

/-- The threshold map built by the `crop_thr` effect
(`Record<string, ThrRow>` keyed by parameter). -/
abbrev ThrMap := List ThrRow

/-- Key access `thrMap[p.key]`.  `buildThrMap` stores the rows reversed, so
taking the first match here realizes the record semantics of the source
(a later row for the same parameter overwrites an earlier one). -/
def lookupThr (m : ThrMap) (p : Param) : Option ThrRow :=
  m.find? (fun r => r.param == p)

/-- The `forEach`-built record of the `crop_thr` effect: associations are
inserted in row order and a later row for the same parameter wins, which
`lookupThr`'s first-match rule reproduces on the reversed list. -/
def buildThrMap (rows : List ThrRow) : ThrMap :=
  rows.reverse

/-- A row of the `alt_crop_reco` table. -/
structure AltRec where
  soil_param : String
  reading_range : String
  recommended_crop : String
deriving DecidableEq, Repr

/-- Entry of the `PARAMS` configuration array of the `Live` page. -/
structure ParamCfg where
  key : Param
  label : String
  unit : Option String
  icon : String
  short : String
deriving DecidableEq, Repr

/-- The `PARAMS` array of the `Live` page, in source order. -/
def PARAMS : List ParamCfg :=
  [ ⟨.moist_pct, "Moisture", some "%", "üíß", "MOISTURE"⟩,
    ⟨.temp_c, "Temperature", some "¬∞C", "üå°Ô∏è", "TEMPERATURE"⟩,
    ⟨.ec_ms, "EC", some "mS/cm", "‚ö°", "EC"⟩,
    ⟨.ph, "pH", none, "üß™", "PH"⟩,
    ⟨.n_mgkg, "Nitrogen", some "mg/kg", "N", "NITROGEN"⟩,
    ⟨.p_mgkg, "Phosphorus", some "mg/kg", "P", "PHOSPHORUS"⟩,
    ⟨.k_mgkg, "Potassium", some "mg/kg", "K", "POTASSIUM"⟩ ]

/-- One advisory bullet of `buildCropReco`, mirroring the template literal
of the source (the direction is the literal `"LOW"` or `"HIGH"`). -/
def issueLine (label dir : String) (v : ℚ) (unit : String) (vmin vmax : ℚ)
    (baseDesc : String) : String :=
  "‚Ä¢ " ++ label ++ " is " ++ dir ++ " (" ++ toString v ++
    (if unit = "" then "" else " " ++ unit) ++ "; optimal " ++ toString vmin ++
    "‚Äì" ++ toString vmax ++ " " ++ unit ++ "). " ++ baseDesc ++ "<br>"

/-- The per-parameter body of the `PARAMS.forEach` loop in `buildCropReco`:
the advisory line pushed for this parameter, or `none` when the loop
returns early (null value or no configured threshold) or the value is in
range. -/
def paramIssue (t : TelemRow) (m : ThrMap) (cfg : ParamCfg) : Option String :=
  match t.get cfg.key with
  | none => none
  | some v =>
    match lookupThr m cfg.key with
    | none => none
    | some thr =>
      let unit := if thr.unit = "" then cfg.unit.getD "" else thr.unit
      let baseDesc := thr.descr.getD ""
      if v < thr.val_min then
        some (issueLine cfg.label "LOW" v unit thr.val_min thr.val_max baseDesc)
      else if thr.val_max < v then
        some (issueLine cfg.label "HIGH" v unit thr.val_min thr.val_max baseDesc)
      else none

/-- `buildCropReco` of the `Live` page: the crop-specific-treatment advisory
string built from the current reading and the threshold map. -/
def buildCropReco (telem : Option TelemRow) (m : ThrMap) : String :=
  match telem with
  | none =>
      "Waiting for real-time sensor data. Once readings are available, this area will highlight which parameters are below or above the optimal range for the selected crop."
  | some t =>
      let issues := PARAMS.filterMap (paramIssue t m)
      if issues.isEmpty then
        "‚Ä¢ The selected crop is doing well. Maintain your current practices."
      else
        String.intercalate "\n" issues

/-- The fixed-constant condition checks of `buildAltReco`: for the three
special parameters, the `(soil_param, reading_range)` key looked up in
`alt_crop_reco` when the condition on the value fires. -/
def altCond (p : Param) (v : ℚ) : Option (String × String) :=
  match p with
  | .moist_pct => if v < 40 then some ("Soil Moisture", "<40% (dry)") else none
  | .ec_ms => if 2 < v then some ("EC", "High EC (>2.0 mS/cm)") else none
  | .temp_c => if 30 < v then some ("Soil Temperature", ">30¬∞ C (hot soil)") else none
  | _ => none

/-- The per-parameter body of the `PARAMS.forEach` loop in `buildAltReco`:
the recommended crop this parameter contributes, or `none` when the loop
returns early (null value or no configured threshold), no condition fires,
or no matching `alt_crop_reco` row exists. -/
def altContribution (alt : List AltRec) (m : ThrMap) (t : TelemRow)
    (cfg : ParamCfg) : Option String :=
  match t.get cfg.key with
  | none => none
  | some v =>
    match lookupThr m cfg.key with
    | none => none
    | some _ =>
      match altCond cfg.key v with
      | none => none
      | some key =>
        (alt.find? (fun r => r.soil_param == key.1 && r.reading_range == key.2)).map
          (fun r => r.recommended_crop)

/-- The fold accumulating `recommendedCrops` in `buildAltReco`
(order-preserving, deduplicated by `includes`). -/
def altStep (alt : List AltRec) (m : ThrMap) (t : TelemRow)
    (acc : List String) (cfg : ParamCfg) : List String :=
  match altContribution alt m t cfg with
  | none => acc
  | some c => if acc.contains c then acc else acc ++ [c]

/-- The `recommendedCrops` list accumulated by `buildAltReco` over `PARAMS`. -/
def collectAltCrops (alt : List AltRec) (m : ThrMap) (t : TelemRow) : List String :=
  PARAMS.foldl (altStep alt m t) []

/-- `buildAltReco` of the `Live` page: the alternative-crop suggestion
string. -/
def buildAltReco (telem : Option TelemRow) (m : ThrMap) (alt : List AltRec) : String :=
  match telem with
  | none =>
      "Alternative crop suggestions will appear here once stable soil readings are available. For now, focus on reaching the optimal ranges for the selected crop."
  | some t =>
      let cs := collectAltCrops alt m t
      if cs.isEmpty then
        "‚Ä¢ The selected crop is doing well. If issues arise, consider alternative crops like Lemongrass or Okra based on soil conditions."
      else
        "‚Ä¢ Based on your current soil conditions, consider switching to one of the following alternative crops: " ++
          String.intercalate ", " cs ++ "."

/-- The classification implicit in `buildCropReco`'s branch structure for a
parameter with value `v` under bounds `vmin`/`vmax`. -/
inductive Cls where
  | LOW
  | OK
  | HIGH
deriving DecidableEq, Repr

/-- The if/else-if chain of `buildCropReco` lines 270-278: `LOW` when the
value is below `val_min`, `HIGH` when above `val_max`, `OK` otherwise. -/
def classify (vmin vmax v : ℚ) : Cls :=
  if v < vmin then .LOW else if vmax < v then .HIGH else .OK

/-- A `sens_rdg_30m` row (`HistRow` in the `Analytics` page): one
pre-aggregated 30-minute bucket.  `bkt_30m` is the bucket-start timestamp,
modelled as a rational ordinal. -/
structure HistRow where
  bkt_30m : ℚ
  crop : Crop
  ph : Option ℚ
  moist_pct : Option ℚ
  temp_c : Option ℚ
  ec_ms : Option ℚ
  n_mgkg : Option ℚ
  p_mgkg : Option ℚ
  k_mgkg : Option ℚ
deriving DecidableEq, Repr

/-- Dynamic field access `r[p.key]` on a historical bucket. -/
def HistRow.get (r : HistRow) : Param → Option ℚ
  | .moist_pct => r.moist_pct
  | .temp_c => r.temp_c
  | .ec_ms => r.ec_ms
  | .ph => r.ph
  | .n_mgkg => r.n_mgkg
  | .p_mgkg => r.p_mgkg
  | .k_mgkg => r.k_mgkg

/-- Entry of the `SUM_PARAMS` configuration array of the `Analytics` page. -/
structure SumCfg where
  key : Param
  label : String
  unit : String
deriving DecidableEq, Repr

/-- The `SUM_PARAMS` array of the `Analytics` page, in source order. -/
def SUM_PARAMS : List SumCfg :=
  [ ⟨.moist_pct, "Moisture", "%"⟩,
    ⟨.temp_c, "Temp", "°C"⟩,
    ⟨.ec_ms, "EC", "mS/cm"⟩,
    ⟨.ph, "pH", ""⟩,
    ⟨.n_mgkg, "N", "mg/kg"⟩,
    ⟨.p_mgkg, "P", "mg/kg"⟩,
    ⟨.k_mgkg, "K", "mg/kg"⟩ ]

/-- The `SumStat` record of the `Analytics` page: per-parameter summary
statistics, each possibly absent (`null`). -/
structure SumStat where
  key : Param
  label : String
  unit : String
  min : Option ℚ
  max : Option ℚ
  avg : Option ℚ
  last : Option ℚ
deriving DecidableEq, Repr

/-- The non-null values of one parameter over the loaded buckets:
`rows.map(r => r[p.key]).filter(v is number)` of the source (the NaN guard
is vacuous over `ℚ`). -/
def nonNullVals (rows : List HistRow) (p : Param) : List ℚ :=
  (rows.map (fun r => r.get p)).filterMap id

/-- The body of the `SUM_PARAMS.map` in the `stats` memo: all-null record
when no non-null value exists, otherwise `Math.min`/`Math.max`/mean over
the non-null values and the (possibly null) value of the chronologically
last loaded bucket. -/
def statsFor (rows : List HistRow) (cfg : SumCfg) : SumStat :=
  let vals := nonNullVals rows cfg.key
  if vals.isEmpty then
    ⟨cfg.key, cfg.label, cfg.unit, none, none, none, none⟩
  else
    let sum := vals.foldl (· + ·) 0
    let avg := sum / (vals.length : ℚ)
    let last := rows.getLast?.bind (fun r => r.get cfg.key)
    ⟨cfg.key, cfg.label, cfg.unit, vals.min?, vals.max?, some avg, last⟩

/-- The `stats` memo of the `Analytics` page: empty when no bucket is
loaded, otherwise one `SumStat` per entry of `SUM_PARAMS`. -/
def stats (rows : List HistRow) : List SumStat :=
  if rows.isEmpty then [] else SUM_PARAMS.map (statsFor rows)

/-- A point of the `chartData` array of the `Live` page (a mapped
`sens_rdg_30m` row; `t` is the rendered timestamp string). -/
structure ChartPoint where
  t : String
  ph : Option ℚ
  moist_pct : Option ℚ
  temp_c : Option ℚ
  ec_ms : Option ℚ
  n_mgkg : Option ℚ
  p_mgkg : Option ℚ
  k_mgkg : Option ℚ
deriving DecidableEq, Repr

/-- An in-flight asynchronous load of an effect that has a cleanup-set
`cancelled` flag (the `telem_rt` snapshot effect and the `crop_thr` effect):
the crop captured by the effect closure, and whether the cleanup has run. -/
structure Pend where
  forCrop : Crop
  cancelled : Bool
deriving DecidableEq, Repr

/-- An in-flight `fetchChartData` load of the `Live` page.  The source
effect has no cleanup and no cancellation flag: only the captured crop. -/
structure ChartPend where
  forCrop : Crop
deriving DecidableEq, Repr

/-- The mutable state of the `Live` page: the React state hooks plus the
in-flight asynchronous loads, the external `device.cur_crop` store value,
and the console-error log. -/
structure MState where
  dev : Option Dev
  storeCrop : Option Crop
  crop : Crop
  telem : Option TelemRow
  thrMap : ThrMap
  alt : List AltRec
  chartData : List ChartPoint
  snaps : List Pend
  thrPends : List Pend
  charts : List ChartPend
  log : List String
deriving DecidableEq, Repr

/-- The two advisory strings rendered by the `Live` page, computed from the
current state exactly as the render calls `buildCropReco()` and
`buildAltReco()`. -/
def liveAdvisories (s : MState) : String × String :=
  (buildCropReco s.telem s.thrMap, buildAltReco s.telem s.thrMap s.alt)

/-- The effect cascade of a crop-state change: the effects keyed on `[crop]`
re-run only when the value actually changed; the snapshot and `crop_thr`
effects run their cleanups (setting `cancelled` on the old loads) and issue
new loads for the new crop, while `fetchChartData` issues a new load with
no cleanup of the old one. -/
def cascade (s : MState) (c : Crop) : MState :=
  if c = s.crop then s
  else
    { s with
      crop := c
      snaps := s.snaps.map (fun p => ⟨p.forCrop, true⟩) ++ [⟨c, false⟩]
      thrPends := s.thrPends.map (fun p => ⟨p.forCrop, true⟩) ++ [⟨c, false⟩]
      charts := s.charts ++ [⟨c⟩] }

/-- `handleCropChange` of the `Live` page: `setCrop(newCrop)` synchronously
(with its effect cascade), then — only when a device row is loaded — the
best-effort persistence of `device.cur_crop`, whose failure is only
logged. -/
def selectCropStep (s : MState) (c : Crop) (persistOk : Bool) : MState :=
  let s1 := cascade s c
  match s1.dev with
  | none => s1
  | some _ =>
    if persistOk then { s1 with storeCrop := some c }
    else { s1 with log := s1.log ++ ["Error updating cur_crop:"] }

/-- The asynchronous events the `Live` page reacts to.  A `Resolve` event
carries the index of the in-flight load that completes and the data the
store returned for it; `push` is a realtime INSERT/UPDATE payload. -/
inductive Ev where
  | selectCrop (c : Crop) (persistOk : Bool)
  | snapResolve (i : Nat) (res : Option TelemRow)
  | thrResolve (i : Nat) (res : List ThrRow)
  | chartResolve (i : Nat) (res : List ChartPoint)
  | push (row : TelemRow)
  | altLoaded (res : List AltRec)
deriving Repr

/-- One transition of the `Live` page.  A resolving snapshot or threshold
load is dropped when its effect was cleaned up (`cancelled`); a resolving
chart load is applied unconditionally (the source effect has no guard); a
push event is applied iff its row's crop equals the crop of the currently
open realtime channel, which is re-created synchronously on every crop
change and therefore always carries the current crop. -/
def step (s : MState) : Ev → MState
  | .selectCrop c ok => selectCropStep s c ok
  | .snapResolve i res =>
    match s.snaps[i]? with
    | none => s
    | some p =>
      let s' := { s with snaps := s.snaps.eraseIdx i }
      if p.cancelled then s' else { s' with telem := res }
  | .thrResolve i res =>
    match s.thrPends[i]? with
    | none => s
    | some p =>
      let s' := { s with thrPends := s.thrPends.eraseIdx i }
      if p.cancelled then s' else { s' with thrMap := buildThrMap res }
  | .chartResolve i res =>
    match s.charts[i]? with
    | none => s
    | some _ => { s with charts := s.charts.eraseIdx i, chartData := res }
  | .push row => if row.crop = s.crop then { s with telem := some row } else s
  | .altLoaded res => { s with alt := res }

/-- Run a sequence of events from a state. -/
def run (s : MState) : List Ev → MState
  | [] => s
  | e :: es => run (step s e) es

/-- The state right after mounting the `Live` page with default crop `c0`:
every crop-keyed effect has issued its initial load. -/
def initState (c0 : Crop) : MState :=
  { dev := none, storeCrop := none, crop := c0, telem := none, thrMap := [],
    alt := [], chartData := [], snaps := [⟨c0, false⟩],
    thrPends := [⟨c0, false⟩], charts := [⟨c0⟩], log := [] }

/-- Environment well-formedness of one event: the store answers a snapshot
query `eq('crop', crop)` only with rows of that crop.  All other events are
unconstrained. -/
def WfEv (s : MState) (e : Ev) : Prop :=
  match e with
  | .snapResolve i res =>
    match s.snaps[i]?, res with
    | some p, some row => row.crop = p.forCrop
    | _, _ => True
  | _ => True

/-- The inductive invariant of the snapshot loads: an in-flight snapshot
load that has not been cancelled was issued for the currently selected
crop. -/
def InvSnaps (s : MState) : Prop :=
  ∀ p ∈ s.snaps, p.cancelled = false → p.forCrop = s.crop

/-- The time-window selector of the `Analytics` page. -/
inductive TimeWin where
  | h24
  | d7
  | d30
deriving DecidableEq, Repr

/-- An in-flight history load of the `Analytics` page.  The source effect
has no cleanup and no cancellation flag: only the captured crop and
window. -/
structure APend where
  forCrop : Crop
  forWin : TimeWin
deriving DecidableEq, Repr

/-- The mutable state of the `Analytics` page. -/
structure AState where
  crop : Crop
  win : TimeWin
  rows : List HistRow
  pends : List APend
deriving DecidableEq, Repr

/-- The events of the `Analytics` page: selector changes reissue the
history load; a resolving load applies its rows (or clears them on a fetch
error) with no staleness check. -/
inductive AEv where
  | setCropA (c : Crop)
  | setWinA (w : TimeWin)
  | histResolve (i : Nat) (ok : Bool) (res : List HistRow)
deriving Repr

/-- One transition of the `Analytics` page. -/
def astep (s : AState) : AEv → AState
  | .setCropA c =>
    if c = s.crop then s
    else { s with crop := c, pends := s.pends ++ [⟨c, s.win⟩] }
  | .setWinA w =>
    if w = s.win then s
    else { s with win := w, pends := s.pends ++ [⟨s.crop, w⟩] }
  | .histResolve i ok res =>
    match s.pends[i]? with
    | none => s
    | some _ =>
      let s' := { s with pends := s.pends.eraseIdx i }
      if ok then { s' with rows := res } else { s' with rows := [] }

/-- The state right after mounting the `Analytics` page: the initial
history load for the default selectors is in flight. -/
def aInit : AState :=
  { crop := .pechay, win := .h24, rows := [], pends := [⟨.pechay, .h24⟩] }

/-- A `Live` state with a loaded device row, used by witnesses. -/
def devState : MState :=
  { initState .pechay with dev := some ⟨"id1", "node", "tok", some .pechay⟩ }

/-- The spec's aggregation example: three moisture buckets 10, null, 30. -/
def exampleRows : List HistRow :=
  [ ⟨1, .pechay, none, some 10, none, none, none, none, none⟩,
    ⟨2, .pechay, none, none,    none, none, none, none, none⟩,
    ⟨3, .pechay, none, some 30, none, none, none, none, none⟩ ]

/-- A telemetry row with every channel null. -/
def emptyTelem : TelemRow :=
  ⟨"dev1", 0, .pechay, none, none, none, none, none, none, none⟩

/-- A telemetry row with a very dry moisture value and otherwise plausible
channels. -/
def dryTelem : TelemRow :=
  ⟨"dev1", 1, .pechay, some 6, some 30, some 25, some 1, some 50, some 20, some 80⟩

/-- A `crop_thr` rule for an okra moisture band, used by counterexamples. -/
def okraRule : ThrRow := ⟨.okra, .moist_pct, 60, 80, "%", none⟩

/-- A reachable `Live` state: a pechay reading is pushed, the selection
switches to okra, and okra's threshold catalog resolves.  Okra's snapshot
load is still pending, so the pechay reading is still the current
reading. -/
def staleState : MState :=
  run (initState .pechay)
    [.push dryTelem, .selectCrop .okra true, .thrResolve 1 [okraRule]]

/-- A push-delivered pechay reading with timestamp 10. -/
def pushRow : TelemRow :=
  ⟨"dev1", 10, .pechay, some 6, some 55, some 25, some 1, some 50, some 20, some 80⟩

/-- A pechay snapshot result with the strictly earlier timestamp 5. -/
def snapRow : TelemRow :=
  ⟨"dev1", 5, .pechay, some 6, some 50, some 25, some 1, some 50, some 20, some 80⟩

/-- A chart point mapped from a pechay history row. -/
def demoPoint : ChartPoint :=
  ⟨"t1", some 6, some 55, some 25, some 1, some 50, some 20, some 80⟩

/-- A pechay history bucket. -/
def histP : HistRow :=
  ⟨1, .pechay, some 6, some 55, some 25, some 1, some 50, some 20, some 80⟩

/-- An `alt_crop_reco` table mapping dry soil to Lemongrass. -/
def demoAlt : List AltRec := [⟨"Soil Moisture", "<40% (dry)", "Lemongrass"⟩]

/-- A catalog holding a moisture rule with bounds 40-70. -/
def demoThr : ThrMap := [⟨.pechay, .moist_pct, 40, 70, "%", none⟩]

/-- A catalog with the same domain as `demoThr` but bounds 0-100. -/
def demoThr2 : ThrMap := [⟨.pechay, .moist_pct, 0, 100, "%", none⟩]

/-- C1: For every reading value `v` and threshold rule `t` with
`t.val_min ≤ t.val_max`, the classification implemented by `buildCropReco`'s
branch chain is exactly one of LOW, OK, HIGH: LOW iff `v < val_min`, HIGH
iff `v > val_max`, OK otherwise; a boundary value classifies as OK, and the
OK class is exactly the case in which `paramIssue` emits no advisory
line. -/
theorem classification_trichotomy_inclusive (t : ThrRow) (v : ℚ)
    (h : t.val_min ≤ t.val_max) :
    (classify t.val_min t.val_max v = .LOW ↔ v < t.val_min) ∧
    (classify t.val_min t.val_max v = .HIGH ↔ t.val_max < v) ∧
    (classify t.val_min t.val_max v = .OK ↔ t.val_min ≤ v ∧ v ≤ t.val_max) ∧
    ((v = t.val_min ∨ v = t.val_max) → classify t.val_min t.val_max v = .OK) ∧
    (∀ (tr : TelemRow) (m : ThrMap) (cfg : ParamCfg),
      tr.get cfg.key = some v → lookupThr m cfg.key = some t →
      (paramIssue tr m cfg = none ↔ classify t.val_min t.val_max v = .OK)) := by
  refine ⟨?_, ?_, ?_, ?_, ?_⟩
  · unfold classify
    split_ifs with h1 h2 <;> simp_all
  · unfold classify
    split_ifs with h1 h2 <;> simp_all
    linarith
  · unfold classify
    split_ifs with h1 h2 <;> simp_all
  · rintro (rfl | rfl) <;> unfold classify <;> split_ifs with h1 h2 <;> try rfl
    all_goals (exfalso; linarith)
  · intro tr m cfg h1 h2
    simp only [paramIssue, h1, h2]
    unfold classify
    split_ifs with hlo hhi <;> simp_all

/-- Witness for C1 at the concrete rule 40-70: both boundary values
classify OK. -/
theorem classification_trichotomy_inclusive_witness :
    classify 40 70 40 = .OK ∧ classify 40 70 70 = .OK := by
  have h1 := classification_trichotomy_inclusive
    ⟨.pechay, .moist_pct, 40, 70, "%", none⟩ 40 (by norm_num)
  have h2 := classification_trichotomy_inclusive
    ⟨.pechay, .moist_pct, 40, 70, "%", none⟩ 70 (by norm_num)
  exact ⟨h1.2.2.2.1 (Or.inl rfl), h2.2.2.2.1 (Or.inr rfl)⟩

theorem foldl_min_le_init (l : List ℚ) (a : ℚ) : l.foldl min a ≤ a := by
  induction l generalizing a with
  | nil => simp
  | cons x xs ih => exact le_trans (ih (min a x)) (min_le_left a x)

theorem foldl_min_le_mem (l : List ℚ) (a : ℚ) : ∀ v ∈ l, l.foldl min a ≤ v := by
  induction l generalizing a with
  | nil => simp
  | cons x xs ih =>
    intro v hv
    rcases List.mem_cons.mp hv with rfl | hv
    · exact le_trans (foldl_min_le_init xs (min a v)) (min_le_right a v)
    · exact ih (min a x) v hv

theorem foldl_min_mem (l : List ℚ) (a : ℚ) : l.foldl min a = a ∨ l.foldl min a ∈ l := by
  induction l generalizing a with
  | nil => simp
  | cons x xs ih =>
    rw [List.foldl_cons]
    rcases ih (min a x) with h | h
    · rcases min_choice a x with h2 | h2
      · left; rw [h, h2]
      · right; rw [h, h2]; exact List.mem_cons_self x xs
    · right; exact List.mem_cons_of_mem x h

/-- `Math.min(...vals)` over a non-empty list: the returned value is a
member and a lower bound. -/
theorem min?_spec (l : List ℚ) (hl : l ≠ []) :
    ∃ m, l.min? = some m ∧ m ∈ l ∧ ∀ v ∈ l, m ≤ v := by
  match l, hl with
  | x :: xs, _ =>
    refine ⟨xs.foldl min x, rfl, ?_, ?_⟩
    · rcases foldl_min_mem xs x with h | h
      · rw [h]; exact List.mem_cons_self x xs
      · exact List.mem_cons_of_mem x h
    · intro v hv
      rcases List.mem_cons.mp hv with rfl | hv
      · exact foldl_min_le_init xs v
      · exact foldl_min_le_mem xs x v hv

theorem foldl_max_init_le (l : List ℚ) (a : ℚ) : a ≤ l.foldl max a := by
  induction l generalizing a with
  | nil => simp
  | cons x xs ih => exact le_trans (le_max_left a x) (ih (max a x))

theorem foldl_max_mem_le (l : List ℚ) (a : ℚ) : ∀ v ∈ l, v ≤ l.foldl max a := by
  induction l generalizing a with
  | nil => simp
  | cons x xs ih =>
    intro v hv
    rcases List.mem_cons.mp hv with rfl | hv
    · exact le_trans (le_max_right a v) (foldl_max_init_le xs (max a v))
    · exact ih (max a x) v hv

theorem foldl_max_mem (l : List ℚ) (a : ℚ) : l.foldl max a = a ∨ l.foldl max a ∈ l := by
  induction l generalizing a with
  | nil => simp
  | cons x xs ih =>
    rw [List.foldl_cons]
    rcases ih (max a x) with h | h
    · rcases max_choice a x with h2 | h2
      · left; rw [h, h2]
      · right; rw [h, h2]; exact List.mem_cons_self x xs
    · right; exact List.mem_cons_of_mem x h

/-- `Math.max(...vals)` over a non-empty list: the returned value is a
member and an upper bound. -/
theorem max?_spec (l : List ℚ) (hl : l ≠ []) :
    ∃ m, l.max? = some m ∧ m ∈ l ∧ ∀ v ∈ l, v ≤ m := by
  match l, hl with
  | x :: xs, _ =>
    refine ⟨xs.foldl max x, rfl, ?_, ?_⟩
    · rcases foldl_max_mem xs x with h | h
      · rw [h]; exact List.mem_cons_self x xs
      · exact List.mem_cons_of_mem x h
    · intro v hv
      rcases List.mem_cons.mp hv with rfl | hv
      · exact foldl_max_init_le xs v
      · exact foldl_max_mem_le xs x v hv

/-- C2: For a non-empty historical window, each tracked parameter's summary
statistics are computed over exactly the non-null values of that parameter:
min/max/avg are absent when no non-null value exists; otherwise min and max
are the extrema of the non-null values, avg is their arithmetic mean
(stated multiplicatively: `avg * count = sum`), and `last` is the value of
the parameter in the chronologically last bucket — possibly null. -/
theorem summary_stats_correct (rows : List HistRow) (cfg : SumCfg)
    (hr : rows ≠ []) (hc : cfg ∈ SUM_PARAMS) :
    (statsFor rows cfg ∈ stats rows) ∧
    (nonNullVals rows cfg.key = [] →
      (statsFor rows cfg).min = none ∧ (statsFor rows cfg).max = none ∧
      (statsFor rows cfg).avg = none ∧ (statsFor rows cfg).last = none) ∧
    (nonNullVals rows cfg.key ≠ [] →
      (∃ m, (statsFor rows cfg).min = some m ∧ m ∈ nonNullVals rows cfg.key ∧
        ∀ v ∈ nonNullVals rows cfg.key, m ≤ v) ∧
      (∃ M, (statsFor rows cfg).max = some M ∧ M ∈ nonNullVals rows cfg.key ∧
        ∀ v ∈ nonNullVals rows cfg.key, v ≤ M) ∧
      (∃ a, (statsFor rows cfg).avg = some a ∧
        a * (nonNullVals rows cfg.key).length =
          (nonNullVals rows cfg.key).foldl (· + ·) 0) ∧
      (∀ (r : HistRow) (rest : List HistRow), rows = rest ++ [r] →
        (statsFor rows cfg).last = r.get cfg.key)) := by
  refine ⟨?_, ?_, ?_⟩
  · unfold stats
    rw [if_neg (by simpa using hr)]
    exact List.mem_map_of_mem (statsFor rows) hc
  · intro hv
    unfold statsFor
    rw [hv]
    simp
  · intro hv
    unfold statsFor
    rw [if_neg (by simpa using hv)]
    refine ⟨?_, ?_, ?_, ?_⟩
    · simpa using min?_spec _ hv
    · simpa using max?_spec _ hv
    · refine ⟨_, rfl, ?_⟩
      have hlen : ((nonNullVals rows cfg.key).length : ℚ) ≠ 0 := by
        simpa [Nat.cast_ne_zero] using List.length_pos.mpr hv |>.ne'
      field_simp
    · intro r rest hrr
      subst hrr
      simp [List.getLast?_concat]

/-- Witness for C2: on the spec's example window the moisture summary is
min 10, max 30, avg 20, last 30, and it is an entry of `stats`. -/
theorem summary_stats_correct_witness :
    statsFor exampleRows ⟨.moist_pct, "Moisture", "%"⟩ =
      ⟨.moist_pct, "Moisture", "%", some 10, some 30, some 20, some 30⟩ ∧
    statsFor exampleRows ⟨.moist_pct, "Moisture", "%"⟩ ∈ stats exampleRows := by
  constructor
  · simp only [statsFor, nonNullVals, exampleRows, HistRow.get]
    norm_num [List.filterMap, List.min?, List.max?, List.foldl, min_def, max_def]
  · exact (summary_stats_correct exampleRows ⟨.moist_pct, "Moisture", "%"⟩
      (by decide) (by decide)).1

/-- C7: A parameter whose reading value is null, or for which the catalog
has no threshold rule, produces no advisory line in `buildCropReco` and
contributes nothing to the alternative-crop suggestion of `buildAltReco`. -/
theorem null_or_missing_threshold_skips (tr : TelemRow) (m : ThrMap)
    (alt : List AltRec) (cfg : ParamCfg)
    (h : tr.get cfg.key = none ∨ lookupThr m cfg.key = none) :
    paramIssue tr m cfg = none ∧ altContribution alt m tr cfg = none := by
  rcases h with h | h
  · constructor <;> simp [paramIssue, altContribution, h]
  · constructor <;>
      (cases hv : tr.get cfg.key <;> simp [paramIssue, altContribution, hv, h])

/-- Witness for C7: the null-moisture reading yields no moisture line under
a catalog that does have a moisture rule, and the dry reading yields none
under an empty catalog. -/
theorem null_or_missing_threshold_skips_witness :
    (paramIssue emptyTelem [⟨.pechay, .moist_pct, 40, 70, "%", none⟩]
        ⟨.moist_pct, "Moisture", some "%", "üíß", "MOISTURE"⟩ = none ∧
      altContribution [] [⟨.pechay, .moist_pct, 40, 70, "%", none⟩] emptyTelem
        ⟨.moist_pct, "Moisture", some "%", "üíß", "MOISTURE"⟩ = none) ∧
    (paramIssue dryTelem []
        ⟨.moist_pct, "Moisture", some "%", "üíß", "MOISTURE"⟩ = none ∧
      altContribution [] [] dryTelem
        ⟨.moist_pct, "Moisture", some "%", "üíß", "MOISTURE"⟩ = none) := by
  constructor
  · exact null_or_missing_threshold_skips emptyTelem
      [⟨.pechay, .moist_pct, 40, 70, "%", none⟩] []
      ⟨.moist_pct, "Moisture", some "%", "üíß", "MOISTURE"⟩ (Or.inl rfl)
  · exact null_or_missing_threshold_skips dryTelem [] []
      ⟨.moist_pct, "Moisture", some "%", "üíß", "MOISTURE"⟩ (Or.inr rfl)

/-- C10: With zero loaded buckets `stats` returns the empty list — no
per-parameter entries at all; the seven per-parameter records (absent or
not) are produced exactly when the bucket list is non-empty. -/
theorem stats_empty_window_empty_list (rows : List HistRow) (hr : rows ≠ []) :
    stats [] = [] ∧
    stats rows = SUM_PARAMS.map (statsFor rows) ∧
    (stats rows).length = 7 := by
  refine ⟨rfl, ?_, ?_⟩
  · unfold stats
    rw [if_neg (by simpa using hr)]
  · unfold stats
    rw [if_neg (by simpa using hr)]
    simp [SUM_PARAMS]

/-- Witness for C10 on the spec's example window. -/
theorem stats_empty_window_empty_list_witness :
    stats [] = [] ∧
    stats exampleRows = SUM_PARAMS.map (statsFor exampleRows) ∧
    (stats exampleRows).length = 7 :=
  stats_empty_window_empty_list exampleRows (by decide)

/-- C9: The advisory computation is a pure, deterministic function of the
reading, the threshold catalog and the alt-crop rules: any two states of
the `Live` page agreeing on those three inputs render byte-identical
advisory strings, whatever their other fields. -/
theorem advisory_pure_deterministic (s1 s2 : MState) (h1 : s1.telem = s2.telem)
    (h2 : s1.thrMap = s2.thrMap) (h3 : s1.alt = s2.alt) :
    liveAdvisories s1 = liveAdvisories s2 := by
  unfold liveAdvisories
  rw [h1, h2, h3]

/-- Witness for C9: two states with different crops, chart data and logs but
identical advisory inputs produce identical advisory strings. -/
theorem advisory_pure_deterministic_witness :
    liveAdvisories { (initState .pechay) with telem := some dryTelem } =
      liveAdvisories { (initState .okra) with
        telem := some dryTelem
        chartData := [⟨"t", none, none, none, none, none, none, none⟩]
        log := ["x"] } ∧
    (initState Crop.pechay).crop ≠ (initState Crop.okra).crop := by
  constructor
  · exact advisory_pure_deterministic _ _ rfl rfl rfl
  · decide

theorem cascade_crop (s : MState) (c : Crop) : (cascade s c).crop = c := by
  unfold cascade
  split_ifs with h
  · exact h.symm
  · rfl

theorem cascade_dev (s : MState) (c : Crop) : (cascade s c).dev = s.dev := by
  unfold cascade
  split_ifs <;> rfl

theorem cascade_storeCrop (s : MState) (c : Crop) :
    (cascade s c).storeCrop = s.storeCrop := by
  unfold cascade
  split_ifs <;> rfl

theorem cascade_log (s : MState) (c : Crop) : (cascade s c).log = s.log := by
  unfold cascade
  split_ifs <;> rfl

/-- C8: `handleCropChange` sets the in-memory selection synchronously and
treats persistence as best-effort: after `handleCropChange(c)` the
selection equals `c` whether the `device.cur_crop` write succeeds or
fails; a failed write leaves the persisted value untouched and is only
logged. -/
theorem setCrop_selection_authoritative (s : MState) (c : Crop) (ok : Bool) :
    (selectCropStep s c ok).crop = c ∧
    (selectCropStep s c false).storeCrop = s.storeCrop ∧
    (s.dev.isSome = true →
      (selectCropStep s c false).log = s.log ++ ["Error updating cur_crop:"]) := by
  refine ⟨?_, ?_, ?_⟩
  · simp only [selectCropStep]
    rcases hdev : (cascade s c).dev with _ | d
    · simp [hdev, cascade_crop]
    · simp only [hdev]
      cases ok <;> simp [cascade_crop]
  · simp only [selectCropStep]
    rcases hdev : (cascade s c).dev with _ | d
    · simp [hdev, cascade_storeCrop]
    · simp [hdev, cascade_storeCrop]
  · intro hsome
    simp only [selectCropStep]
    rcases hdev : (cascade s c).dev with _ | d
    · rw [cascade_dev] at hdev
      rw [hdev] at hsome
      simp at hsome
    · simp [hdev, cascade_log]

/-- Witness for C8: switching the concrete state to okra with a failing
persistence write still selects okra, keeps the store untouched, and only
appends a log line. -/
theorem setCrop_selection_authoritative_witness :
    (selectCropStep devState .okra true).crop = .okra ∧
    (selectCropStep devState .okra false).crop = .okra ∧
    (selectCropStep devState .okra false).storeCrop = devState.storeCrop ∧
    (selectCropStep devState .okra false).log =
      devState.log ++ ["Error updating cur_crop:"] := by
  have h1 := setCrop_selection_authoritative devState .okra true
  have h2 := setCrop_selection_authoritative devState .okra false
  exact ⟨h1.1, h2.1, h2.2.1, h2.2.2 (by decide)⟩


theorem step_selectCrop (s : MState) (c : Crop) (ok : Bool) :
    step s (.selectCrop c ok) = selectCropStep s c ok := rfl

theorem step_snapResolve_none (s : MState) (i : Nat) (res : Option TelemRow)
    (hi : s.snaps[i]? = none) : step s (.snapResolve i res) = s := by
  simp [step, hi]

theorem step_snapResolve_cancelled (s : MState) (i : Nat) (res : Option TelemRow)
    (p : Pend) (hi : s.snaps[i]? = some p) (hc : p.cancelled = true) :
    step s (.snapResolve i res) = { s with snaps := s.snaps.eraseIdx i } := by
  simp [step, hi, hc]

theorem step_snapResolve_live (s : MState) (i : Nat) (res : Option TelemRow)
    (p : Pend) (hi : s.snaps[i]? = some p) (hc : p.cancelled = false) :
    step s (.snapResolve i res) =
      { s with snaps := s.snaps.eraseIdx i, telem := res } := by
  simp [step, hi, hc]

theorem step_thrResolve_none (s : MState) (i : Nat) (res : List ThrRow)
    (hi : s.thrPends[i]? = none) : step s (.thrResolve i res) = s := by
  simp [step, hi]

theorem step_thrResolve_cancelled (s : MState) (i : Nat) (res : List ThrRow)
    (p : Pend) (hi : s.thrPends[i]? = some p) (hc : p.cancelled = true) :
    step s (.thrResolve i res) = { s with thrPends := s.thrPends.eraseIdx i } := by
  simp [step, hi, hc]

theorem step_thrResolve_live (s : MState) (i : Nat) (res : List ThrRow)
    (p : Pend) (hi : s.thrPends[i]? = some p) (hc : p.cancelled = false) :
    step s (.thrResolve i res) =
      { s with thrPends := s.thrPends.eraseIdx i, thrMap := buildThrMap res } := by
  simp [step, hi, hc]

theorem step_chartResolve_none (s : MState) (i : Nat) (res : List ChartPoint)
    (hi : s.charts[i]? = none) : step s (.chartResolve i res) = s := by
  simp [step, hi]

theorem step_chartResolve_some (s : MState) (i : Nat) (res : List ChartPoint)
    (p : ChartPend) (hi : s.charts[i]? = some p) :
    step s (.chartResolve i res) =
      { s with charts := s.charts.eraseIdx i, chartData := res } := by
  simp [step, hi]

theorem step_push_apply (s : MState) (row : TelemRow) (hc : row.crop = s.crop) :
    step s (.push row) = { s with telem := some row } := by
  simp [step, hc]

theorem step_push_skip (s : MState) (row : TelemRow) (hc : ¬ row.crop = s.crop) :
    step s (.push row) = s := by
  simp [step, hc]

theorem step_altLoaded (s : MState) (res : List AltRec) :
    step s (.altLoaded res) = { s with alt := res } := rfl

theorem selectCropStep_crop (s : MState) (c : Crop) (ok : Bool) :
    (selectCropStep s c ok).crop = c := by
  simp only [selectCropStep]
  rcases hdev : (cascade s c).dev with _ | d
  · simp [hdev, cascade_crop]
  · simp only [hdev]
    cases ok <;> simp [cascade_crop]

theorem selectCropStep_snaps (s : MState) (c : Crop) (ok : Bool) :
    (selectCropStep s c ok).snaps = (cascade s c).snaps := by
  simp only [selectCropStep]
  rcases hdev : (cascade s c).dev with _ | d
  · simp [hdev]
  · simp only [hdev]
    cases ok <;> simp

theorem selectCropStep_telem (s : MState) (c : Crop) (ok : Bool) :
    (selectCropStep s c ok).telem = s.telem := by
  have hct : (cascade s c).telem = s.telem := by
    unfold cascade
    split_ifs <;> rfl
  simp only [selectCropStep]
  rcases hdev : (cascade s c).dev with _ | d
  · simp [hdev, hct]
  · simp only [hdev]
    cases ok <;> simp [hct]

/-- C3 (counterexample): a reachable state of the `Live` page in which the
current reading still carries the previously selected crop after the
selection changed — and the advisory logic is evaluated against it,
producing output different from both the waiting-for-data and the
doing-well advisories. -/
theorem stale_reading_surfaced_to_advisory :
    staleState.crop = .okra ∧
    staleState.telem = some dryTelem ∧
    dryTelem.crop = .pechay ∧
    (liveAdvisories staleState).1 = buildCropReco (some dryTelem) staleState.thrMap ∧
    (liveAdvisories staleState).1 ≠
      "‚Ä¢ The selected crop is doing well. Maintain your current practices." ∧
    (liveAdvisories staleState).1 ≠ buildCropReco none staleState.thrMap := by
  refine ⟨rfl, rfl, rfl, rfl, ?_, ?_⟩ <;> decide

/-- C3 (amended): stale-crop data is never *newly applied* — at mount every
pending snapshot load matches the selection, every transition preserves
that invariant, and under it any transition that changes the current
reading installs a row whose crop equals the selection current at
application time.  (The old reading is nevertheless retained, not cleared,
across a selection change — see the counterexample.) -/
theorem stale_crop_data_never_newly_applied :
    (∀ c0, InvSnaps (initState c0)) ∧
    (∀ s e, InvSnaps s → InvSnaps (step s e)) ∧
    (∀ s e, InvSnaps s → WfEv s e →
      ∀ row, (step s e).telem = some row → (step s e).telem ≠ s.telem →
        row.crop = (step s e).crop) := by
  refine ⟨?_, ?_, ?_⟩
  · intro c0 p hp hc
    simp [initState] at hp
    simp [initState, hp]
  · intro s e h
    cases e with
    | selectCrop c ok =>
      intro p hp hc
      rw [step_selectCrop, selectCropStep_snaps] at hp
      rw [step_selectCrop, selectCropStep_crop]
      unfold cascade at hp
      split_ifs at hp with hcs
      · exact (h p hp hc).trans hcs.symm
      · simp at hp
        rcases hp with ⟨q, _, hq⟩ | hp
        · rw [← hq] at hc
          simp at hc
        · rw [hp]
    | snapResolve i res =>
      rcases hi : s.snaps[i]? with _ | p
      · rw [step_snapResolve_none s i res hi]
        exact h
      · intro q hq hqc
        rcases hcp : p.cancelled with _ | _
        · rw [step_snapResolve_live s i res p hi hcp] at hq ⊢
          simp at hq ⊢
          exact h q (List.mem_of_mem_eraseIdx hq) hqc
        · rw [step_snapResolve_cancelled s i res p hi hcp] at hq ⊢
          simp at hq ⊢
          exact h q (List.mem_of_mem_eraseIdx hq) hqc
    | thrResolve i res =>
      rcases hi : s.thrPends[i]? with _ | p
      · rw [step_thrResolve_none s i res hi]
        exact h
      · intro q hq hqc
        rcases hcp : p.cancelled with _ | _
        · rw [step_thrResolve_live s i res p hi hcp] at hq ⊢
          exact h q hq hqc
        · rw [step_thrResolve_cancelled s i res p hi hcp] at hq ⊢
          exact h q hq hqc
    | chartResolve i res =>
      rcases hi : s.charts[i]? with _ | p
      · rw [step_chartResolve_none s i res hi]
        exact h
      · intro q hq hqc
        rw [step_chartResolve_some s i res p hi] at hq ⊢
        exact h q hq hqc
    | push row =>
      by_cases hc : row.crop = s.crop
      · rw [step_push_apply s row hc]
        exact h
      · rw [step_push_skip s row hc]
        exact h
    | altLoaded res =>
      intro q hq hqc
      rw [step_altLoaded] at hq ⊢
      exact h q hq hqc
  · intro s e h hwf row hrow hne
    cases e with
    | selectCrop c ok =>
      rw [step_selectCrop, selectCropStep_telem] at hne
      exact absurd rfl hne
    | snapResolve i res =>
      rcases hi : s.snaps[i]? with _ | p
      · rw [step_snapResolve_none s i res hi] at hne
        exact absurd rfl hne
      · rcases hcp : p.cancelled with _ | _
        · rw [step_snapResolve_live s i res p hi hcp] at hrow ⊢
          simp at hrow ⊢
          subst hrow
          have hwf2 : row.crop = p.forCrop := by simpa [WfEv, hi] using hwf
          rw [hwf2]
          exact h p (List.getElem?_mem hi) hcp
        · rw [step_snapResolve_cancelled s i res p hi hcp] at hne
          exact absurd rfl hne
    | thrResolve i res =>
      rcases hi : s.thrPends[i]? with _ | p
      · rw [step_thrResolve_none s i res hi] at hne
        exact absurd rfl hne
      · rcases hcp : p.cancelled with _ | _
        · rw [step_thrResolve_live s i res p hi hcp] at hne
          exact absurd rfl hne
        · rw [step_thrResolve_cancelled s i res p hi hcp] at hne
          exact absurd rfl hne
    | chartResolve i res =>
      rcases hi : s.charts[i]? with _ | p
      · rw [step_chartResolve_none s i res hi] at hne
        exact absurd rfl hne
      · rw [step_chartResolve_some s i res p hi] at hne
        exact absurd rfl hne
    | push row2 =>
      by_cases hc : row2.crop = s.crop
      · rw [step_push_apply s row2 hc] at hrow ⊢
        simp at hrow ⊢
        rw [← hrow]
        exact hc
      · rw [step_push_skip s row2 hc] at hne
        exact absurd rfl hne
    | altLoaded res =>
      rw [step_altLoaded] at hne
      exact absurd rfl hne

/-- Witness for the amended C3: a snapshot resolving at mount installs a
reading whose crop is the current selection. -/
theorem stale_crop_data_never_newly_applied_witness :
    dryTelem.crop =
      (step (initState .pechay) (.snapResolve 0 (some dryTelem))).crop :=
  stale_crop_data_never_newly_applied.2.2 (initState .pechay)
    (.snapResolve 0 (some dryTelem))
    (stale_crop_data_never_newly_applied.1 .pechay) rfl dryTelem rfl (by decide)

/-- C4: evaluation of the code at the failing trace.  The `fetchChartData`
effect of the `Live` page and the history-load effect of the `Analytics`
page carry no cancellation flag and no crop check: after switching the
selection from pechay to okra, the still-pending pechay loads resolve and
their results are applied while okra is selected. -/
theorem stale_chart_and_history_results_applied :
    (run (initState .pechay) [.selectCrop .okra true]).crop = .okra ∧
    (run (initState .pechay) [.selectCrop .okra true]).charts[0]? =
      some ⟨.pechay⟩ ∧
    (run (initState .pechay)
        [.selectCrop .okra true, .chartResolve 0 [demoPoint]]).chartData =
      [demoPoint] ∧
    (run (initState .pechay)
        [.selectCrop .okra true, .chartResolve 0 [demoPoint]]).crop = .okra ∧
    (astep aInit (.setCropA .okra)).crop = .okra ∧
    (astep aInit (.setCropA .okra)).pends[0]? = some ⟨.pechay, .h24⟩ ∧
    (astep (astep aInit (.setCropA .okra)) (.histResolve 0 true [histP])).rows =
      [histP] ∧
    histP.crop = .pechay :=
  ⟨rfl, rfl, rfl, rfl, rfl, rfl, rfl, rfl⟩

/-- C5 (counterexample): a push update for the active crop arrives with
timestamp 10 after the snapshot load was issued; when the snapshot then
resolves with the strictly older timestamp 5, it replaces the newer push
reading anyway. -/
theorem snapshot_result_overwrites_newer_push :
    snapRow.upd_at < pushRow.upd_at ∧
    snapRow.crop = .pechay ∧ pushRow.crop = .pechay ∧
    (run (initState .pechay) [.push pushRow]).telem = some pushRow ∧
    (run (initState .pechay)
        [.push pushRow, .snapResolve 0 (some snapRow)]).telem = some snapRow :=
  ⟨by decide, rfl, rfl, rfl, rfl⟩

/-- C5 (amended): a resolving snapshot load is governed solely by its
effect's cancellation flag — if the selection has not changed since it was
issued, its result replaces the current reading unconditionally, with no
timestamp comparison against a meanwhile-arrived push update; if the
effect was cleaned up, the result is discarded. -/
theorem snapshot_apply_depends_only_on_cancellation (s : MState) (i : Nat)
    (res : Option TelemRow) (p : Pend) (hp : s.snaps[i]? = some p) :
    (p.cancelled = false → (step s (.snapResolve i res)).telem = res) ∧
    (p.cancelled = true → (step s (.snapResolve i res)).telem = s.telem) := by
  constructor
  · intro hc
    rw [step_snapResolve_live s i res p hp hc]
  · intro hc
    rw [step_snapResolve_cancelled s i res p hp hc]

/-- Witness for the amended C5: the pending mount-time snapshot applies its
result unconditionally. -/
theorem snapshot_apply_depends_only_on_cancellation_witness :
    (step (initState .pechay) (.snapResolve 0 (some snapRow))).telem =
      some snapRow :=
  (snapshot_apply_depends_only_on_cancellation (initState .pechay) 0
    (some snapRow) ⟨.pechay, false⟩ rfl).1 rfl

/-- C6 (counterexample): the dry-moisture alternative-crop condition fires
under a catalog containing a moisture rule but not under the empty catalog,
so the alternative-crop suggestion is not independent of the contents of
the threshold catalog. -/
theorem alt_reco_depends_on_catalog_presence :
    dryTelem.moist_pct = some 30 ∧
    collectAltCrops demoAlt demoThr dryTelem = ["Lemongrass"] ∧
    collectAltCrops demoAlt [] dryTelem = [] ∧
    buildAltReco (some dryTelem) demoThr demoAlt ≠
      buildAltReco (some dryTelem) [] demoAlt := by
  decide

theorem altContribution_domain (t : TelemRow) (alt : List AltRec)
    (m1 m2 : ThrMap) (cfg : ParamCfg)
    (h : (lookupThr m1 cfg.key).isSome = (lookupThr m2 cfg.key).isSome) :
    altContribution alt m1 t cfg = altContribution alt m2 t cfg := by
  unfold altContribution
  cases hv : t.get cfg.key with
  | none => rfl
  | some v =>
    cases h1 : lookupThr m1 cfg.key <;> cases h2 : lookupThr m2 cfg.key <;>
      simp_all

/-- C6 (amended): the three alternative-crop condition checks use the fixed
constants 40, 2.0 and 30, never the bounds of a threshold rule — two
catalogs that configure the same set of parameters yield the same
alternative-crop suggestion whatever their `val_min`/`val_max`; only the
presence of a rule for the parameter gates each check. -/
theorem alt_reco_independent_of_rule_bounds (t : TelemRow) (alt : List AltRec)
    (m1 m2 : ThrMap)
    (h : ∀ cfg ∈ PARAMS,
      (lookupThr m1 cfg.key).isSome = (lookupThr m2 cfg.key).isSome) :
    collectAltCrops alt m1 t = collectAltCrops alt m2 t ∧
    buildAltReco (some t) m1 alt = buildAltReco (some t) m2 alt := by
  have hc : collectAltCrops alt m1 t = collectAltCrops alt m2 t := by
    unfold collectAltCrops
    apply List.foldl_ext
    intro acc cfg hcfg
    unfold altStep
    rw [altContribution_domain t alt m1 m2 cfg (h cfg hcfg)]
  refine ⟨hc, ?_⟩
  simp only [buildAltReco, hc]

/-- Witness for the amended C6: catalogs with moisture bounds 40-70 and
0-100 produce identical alternative-crop suggestions for the dry reading. -/
theorem alt_reco_independent_of_rule_bounds_witness :
    collectAltCrops demoAlt demoThr dryTelem =
      collectAltCrops demoAlt demoThr2 dryTelem ∧
    buildAltReco (some dryTelem) demoThr demoAlt =
      buildAltReco (some dryTelem) demoThr2 demoAlt :=
  alt_reco_independent_of_rule_bounds dryTelem demoAlt demoThr demoThr2
    (by decide)
